import Mathlib

/-!
Verification of the CathReadings daily-readings client.

Shallow embedding of the source file (class CathReadings): the date codec
(formatDateForUrl / parseDateString), the season and rank classifiers, the
verse-block parser, the proxy-race fetch (fetchViaProxies) as an event-trace
state machine over the single-threaded event loop, and the getReadings
orchestration over a two-tier cache.

Machine-integer remarks: JavaScript numbers on these code paths stay tiny
(calendar components), so Nat and Int model them exactly.
-/

set_option maxRecDepth 4000

namespace CathReadings

/-! ## Date codec -/

/-- Result of the JavaScript Date constructor, exposed through getFullYear,
getMonth (here stored 1-based as month) and getDate. -/
structure JsDate where
  year : Int
  month : Nat
  day : Nat
deriving DecidableEq, Repr

/-- Gregorian leap-year test, as used by the JavaScript Date time math.
JavaScript x % y on nonnegative operands agrees with Int.emod. -/
def isLeapYear (y : Int) : Bool :=
  y % 4 == 0 && (y % 100 != 0 || y % 400 == 0)

/-- Number of days of a 1-based month in year y (Gregorian calendar, the
calendar the JavaScript Date type uses for years after 1582). The fallback
branch is unreachable for months in 1..12. -/
def daysInMonth (y : Int) (m : Nat) : Nat :=
  match m with
  | 1 => 31
  | 2 => if isLeapYear y then 29 else 28
  | 3 => 31
  | 4 => 30
  | 5 => 31
  | 6 => 30
  | 7 => 31
  | 8 => 31
  | 9 => 30
  | 10 => 31
  | 11 => 30
  | 12 => 31
  | _ => 30

/-- Day-of-month normalisation performed by the JavaScript Date constructor:
a day outside 1..daysInMonth is folded into the neighbouring months. The fuel
bound 10 is sufficient for every day value producible by parseDateString
(0..99). State is (year, month 1..12, day). -/
def normDate : Nat → Int → Nat → Int → Int × Nat × Int
  | 0, y, m, d => (y, m, d)
  | fuel + 1, y, m, d =>
    if d < 1 then
      let y2 := if m = 1 then y - 1 else y
      let m2 := if m = 1 then 12 else m - 1
      normDate fuel y2 m2 (d + (daysInMonth y2 m2 : Int))
    else if (daysInMonth y m : Int) < d then
      let y2 := if m = 12 then y + 1 else y
      let m2 := if m = 12 then 1 else m + 1
      normDate fuel y2 m2 (d - (daysInMonth y m : Int))
    else (y, m, d)

/-- Embedding of the JavaScript expression new Date(y, monthIndex, day):
the 0-based month index is first folded into the year (floor division, which
Int.ediv and Int.emod give for a positive divisor), then the day is
normalised. Callers in this file only reach it with y of at least 2000, so
the two-digit-year special case of the constructor is out of range. -/
def mkDate (y mIdx d : Int) : JsDate :=
  let y1 := y + mIdx / 12
  let m1 := (mIdx % 12).toNat + 1
  let r := normDate 10 y1 m1 d
  ⟨r.1, r.2.1, r.2.2.toNat⟩

/-- Error kinds of the date codec, named as in the specification. The source
throws plain Error values with distinct messages. -/
inductive DateError where
  | formatError
  | invalidDate
deriving DecidableEq, Repr

/-- ASCII decimal digit test, the character class of the source regex. -/
def isDigitCh (c : Char) : Bool :=
  48 ≤ c.toNat && c.toNat ≤ 57

/-- Numeric value of a decimal digit character. -/
def dv (c : Char) : Nat :=
  c.toNat - 48

/-- Embedding of static parseDateString(dateStr). The regex test becomes a
match on six digit characters; parseInt of each 2-character slice becomes dv
arithmetic; new Date(year, month - 1, day) becomes mkDate. The isNaN check of
the source is unreachable for six-digit input, because the resulting time
value is bounded by a few centuries around 2000, far inside the range where
getTime is a number; the embedding therefore always returns ok on digit
input. -/
def parseDateString (s : String) : Except DateError JsDate :=
  match s.data with
  | [a, b, c, d, e, f] =>
    if isDigitCh a && isDigitCh b && isDigitCh c && isDigitCh d
        && isDigitCh e && isDigitCh f then
      let month := 10 * dv a + dv b
      let day := 10 * dv c + dv d
      let year := 2000 + (10 * dv e + dv f)
      Except.ok (mkDate (year : Int) ((month : Int) - 1) (day : Int))
    else Except.error DateError.formatError
  | _ => Except.error DateError.formatError

/-- Embedding of String(n).padStart(2, the zero character) for a natural
number, as used on month and day. -/
def pad2 (n : Nat) : String :=
  let s := Nat.repr n
  if s.length < 2 then "0" ++ s else s

/-- Embedding of String(y).slice(-2) applied to getFullYear(). -/
def yearSuffix (y : Int) : String :=
  let s := Int.repr y
  s.drop (s.length - 2)

/-- Embedding of static formatDateForUrl(date): zero-padded month and day
followed by the last two characters of the year. -/
def formatDateForUrl (dt : JsDate) : String :=
  pad2 dt.month ++ pad2 dt.day ++ yearSuffix dt.year

/-- Validity predicate for a six-digit date key: the encoded month, day and
year name an existing calendar date. This is the notion of a valid key used
by the round-trip property of the specification. -/
def validKey (s : String) : Bool :=
  match s.data with
  | [a, b, c, d, e, f] =>
    isDigitCh a && isDigitCh b && isDigitCh c && isDigitCh d
      && isDigitCh e && isDigitCh f
      && (let m := 10 * dv a + dv b
          let dy := 10 * dv c + dv d
          let y := 2000 + (10 * dv e + dv f)
          1 ≤ m && m ≤ 12 && 1 ≤ dy && dy ≤ daysInMonth (y : Int) m)
  | _ => false

/-! ## String helpers shared by the parser embedding -/

/-- Check that the list sub occurs at the head of big (helper for the
JavaScript String.includes embedding). -/
def startsWithL : List Char → List Char → Bool
  | _, [] => true
  | [], _ :: _ => false
  | a :: as, b :: bs => a == b && startsWithL as bs

/-- Substring occurrence test on character lists. -/
def containsSub : List Char → List Char → Bool
  | [], sub => sub.isEmpty
  | a :: t, sub => startsWithL (a :: t) sub || containsSub t sub

/-- Embedding of the JavaScript expression s.includes(sub). -/
def jsIncludes (s sub : String) : Bool :=
  containsSub s.data sub.data

/-- JavaScript whitespace class (ASCII part; the titles and readings handled
here contain no exotic Unicode spaces). -/
def isWsCh (c : Char) : Bool :=
  c == ' ' || c == '\t' || c == '\n' || c == '\r' || c.toNat == 12 || c.toNat == 11

/-- Embedding of String.prototype.trim. -/
def jsTrim (s : String) : String :=
  ⟨((s.data.dropWhile isWsCh).reverse.dropWhile isWsCh).reverse⟩

/-- Embedding of String.prototype.toLowerCase restricted to ASCII, which
covers every keyword the rank classifier compares against. -/
def jsToLower (s : String) : String :=
  ⟨s.data.map Char.toLower⟩

/-! ## Season and rank classifiers -/

/-- Embedding of extractSeason(title): the falsy test on a string is the
empty-string test, then ordered case-sensitive includes checks. -/
def extractSeason (title : String) : String :=
  if title = "" then "Unknown"
  else if jsIncludes title "Advent" then "Advent"
  else if jsIncludes title "Christmas" then "Christmas"
  else if jsIncludes title "Lent" then "Lent"
  else if jsIncludes title "Easter" then "Easter"
  else if jsIncludes title "Pentecost" then "Pentecost"
  else if jsIncludes title "Ordinary Time" then "Ordinary Time"
  else "Ordinary Time"

/-- Modelled from the spec: the season rule as stated there, a first-match
scan over the ordered keyword list with the documented defaults. Used only
to compare against extractSeason. -/
def specSeason (title : String) : String :=
  if title = "" then "Unknown"
  else
    (["Advent", "Christmas", "Lent", "Easter", "Pentecost", "Ordinary Time"].find?
      (fun k => jsIncludes title k)).getD "Ordinary Time"

/-- Embedding of extractLiturgicalRank(title, doc). The doc argument of the
source is never read, so it is omitted here. -/
def extractLiturgicalRank (title : String) : String :=
  if title = "" then "Ferial"
  else
    let tl := jsToLower title
    if jsIncludes tl "solemnity" || jsIncludes tl "christmas"
        || jsIncludes tl "epiphany" || jsIncludes tl "easter"
        || jsIncludes tl "pentecost" || jsIncludes tl "ascension"
        || jsIncludes tl "assumption" || jsIncludes tl "all saints"
        || jsIncludes tl "immaculate conception" then "Solemnity"
    else if jsIncludes tl "feast" then "Feast"
    else if jsIncludes tl "memorial" then "Memorial"
    else if jsIncludes tl "st. " || jsIncludes tl "saint " then "Memorial"
    else "Ferial"

/-- Modelled from the spec: the rank rule as a prioritized tier table over
the lowercased title, with first matching tier winning and default Ferial.
Used only to compare against extractLiturgicalRank. -/
def specRank (title : String) : String :=
  if title = "" then "Ferial"
  else
    let tl := jsToLower title
    let tier1 := ["solemnity", "christmas", "epiphany", "easter", "pentecost",
      "ascension", "assumption", "all saints", "immaculate conception"]
    if tier1.any (fun k => jsIncludes tl k) then "Solemnity"
    else if jsIncludes tl "feast" then "Feast"
    else if jsIncludes tl "memorial" then "Memorial"
    else if ["st. ", "saint "].any (fun k => jsIncludes tl k) then "Memorial"
    else "Ferial"

/-! ## Verse-block parsing -/

/-- An anchor element inside the address part of a block: its textContent
and its href property. -/
structure Anchor where
  text : String
  href : String
deriving DecidableEq, Repr

/-- The address element of a block; querySelector for the anchor may find
nothing. -/
structure AddressElem where
  anchor : Option Anchor
deriving DecidableEq, Repr

/-- A content-body element, abstracted to the innerHTML strings of its
paragraph children, which is exactly what extractTextContent reads. -/
structure ContentElem where
  paragraphs : List String
deriving DecidableEq, Repr

/-- A verse block as seen through the three querySelector calls of
parseReadingBlock: each sub-element may be absent. The name element is
abstracted to its textContent. -/
structure VerseBlock where
  nameEl : Option String
  addressEl : Option AddressElem
  contentEl : Option ContentElem
deriving DecidableEq, Repr

/-- One parsed reading, the record returned by parseReadingBlock. -/
structure Reading where
  name : String
  reference : String
  referenceUrl : String
  text : String
deriving DecidableEq, Repr

/-- Skip past the first greater-than character, returning the remainder, or
none when the list holds no greater-than character (helper for the tag
stripping regex). -/
def dropThroughGt : List Char → Option (List Char)
  | [] => none
  | '>' :: rest => some rest
  | _ :: rest => dropThroughGt rest

/-- Embedding of the global regex replace that deletes every tag span. A
match is a less-than character up to the next greater-than character; a
less-than character with no closing greater-than character is not a match
and is kept. Fuel bounds the recursion; fuel equal to the list length always
suffices. -/
def stripTags : Nat → List Char → List Char
  | 0, l => l
  | _ + 1, [] => []
  | fuel + 1, '<' :: rest =>
    match dropThroughGt rest with
    | some rest2 => stripTags fuel rest2
    | none => '<' :: rest
  | fuel + 1, c :: rest => c :: stripTags fuel rest

/-- After the br letters and optional whitespace, accept an optional slash
then the closing bracket (helper for the br regex embedding). -/
def dropThroughGtBr (l : List Char) : Option (List Char) :=
  match l with
  | '>' :: rest => some rest
  | '/' :: '>' :: rest => some rest
  | _ => none

/-- Try to match a br tag (open bracket, letters b and r in either case,
whitespace, optional slash, close bracket) at the head of the list, giving
the remainder after the match. -/
def matchBrTag (l : List Char) : Option (List Char) :=
  match l with
  | '<' :: b :: r :: rest =>
    if (b == 'b' || b == 'B') && (r == 'r' || r == 'R') then
      match dropThroughGtBr (rest.dropWhile isWsCh) with
      | some rest2 => some rest2
      | none => none
    else none
  | _ => none

/-- Embedding of the global case-insensitive replace of br tags by newline
characters. Fuel equal to the list length always suffices. -/
def replaceBr : Nat → List Char → List Char
  | 0, l => l
  | _ + 1, [] => []
  | fuel + 1, c :: rest =>
    match matchBrTag (c :: rest) with
    | some rest2 => '\n' :: replaceBr fuel rest2
    | none => c :: replaceBr fuel rest

/-- Embedding of the per-paragraph pipeline of extractTextContent: replace
br tags by newlines, delete the remaining tags, trim. -/
def cleanParagraph (p : String) : String :=
  jsTrim ⟨stripTags p.data.length (replaceBr p.data.length p.data)⟩

/-- Embedding of extractTextContent(element). The local html variable of the
source (the script/style/br/emphasis replacements on element.innerHTML) is
dead code there, never read after being computed, so it is not modelled; the
returned value only uses the paragraph loop. Empty cleaned paragraphs are
discarded and the survivors joined by a blank line. -/
def extractTextContent (el : ContentElem) : String :=
  String.intercalate "\n\n" ((el.paragraphs.map cleanParagraph).filter (fun t => t != ""))

/-- Embedding of parseReadingBlock(block): null when the name element or the
content element is absent, otherwise a Reading whose reference fields fall
back to the empty string when the optional-chaining path is undefined. -/
def parseReadingBlock (b : VerseBlock) : Option Reading :=
  match b.nameEl, b.contentEl with
  | some nm, some ct =>
    let link := match b.addressEl with
      | some ae => ae.anchor
      | none => none
    let reference := match link with
      | some a => jsTrim a.text
      | none => ""
    let referenceUrl := match link with
      | some a => a.href
      | none => ""
    some ⟨jsTrim nm, reference, referenceUrl, extractTextContent ct⟩
  | _, _ => none

/-- Embedding of the verse-block loop of parseReadings: each block is parsed
and pushed exactly when parseReadingBlock returned a (truthy) object. -/
def readingsOf (blocks : List VerseBlock) : List Reading :=
  blocks.filterMap parseReadingBlock

/-! ## The proxy race (fetchViaProxies) as an event-trace machine

The source runs on a single-threaded event loop: the per-route fetch
callbacks and the global timer callback execute atomically, in some
interleaving order. A trace is a list of such callback activations; raceStep
is the body of one activation, copied from the source handlers. The promise
returned by fetchViaProxies settles once: the outcome field records its
first resolution or rejection and ignores later ones, which is the
resolve/reject semantics of a JavaScript promise. -/

/-- Decidable equality for Except values, used to evaluate race outcomes on
concrete traces. -/
instance {γ δ : Type} [DecidableEq γ] [DecidableEq δ] : DecidableEq (Except γ δ) :=
  fun a b =>
    match a, b with
    | Except.ok x, Except.ok y =>
      if h : x = y then Decidable.isTrue (by rw [h]) else Decidable.isFalse (by simp [h])
    | Except.error x, Except.error y =>
      if h : x = y then Decidable.isTrue (by rw [h]) else Decidable.isFalse (by simp [h])
    | Except.ok _, Except.error _ => Decidable.isFalse (by simp)
    | Except.error _, Except.ok _ => Decidable.isFalse (by simp)

/-- Rejection values of the race promise. -/
inductive RaceError where
  | allProxiesFailed
  | timedOut
deriving DecidableEq, Repr

/-- One event-loop activation observed by fetchViaProxies: route i delivered
a 2xx body, route i failed (non-2xx status, transport error, or abort), or
the global timer fired. -/
inductive RaceEvent where
  | success (i : Nat) (body : String)
  | failure (i : Nat)
  | timerFires
deriving DecidableEq, Repr

/-- State of the race: the settled flag, the failure counter, whether
clearTimeout has been called on the global timer, the set of controllers
that have been aborted, and the settlement of the returned promise. -/
structure RaceState where
  settled : Bool
  failures : Nat
  timerCleared : Bool
  aborted : List Nat
  outcome : Option (Except RaceError String)
deriving DecidableEq, Repr

/-- Initial race state: nothing settled, no failures, timer armed. -/
def raceInit : RaceState :=
  ⟨false, 0, false, [], none⟩

/-- Settling a promise: the first resolution or rejection sticks. -/
def settle (o : Option (Except RaceError String)) (x : Except RaceError String) :
    Option (Except RaceError String) :=
  match o with
  | some y => some y
  | none => some x

/-- One event-loop activation of the race over n routes, transcribed from
the three handlers of fetchViaProxies: the success continuation of a route
fetch, the catch branch of a route fetch, and the global setTimeout
callback. -/
def raceStep (n : Nat) (st : RaceState) (ev : RaceEvent) : RaceState :=
  match ev with
  | RaceEvent.success i body =>
    if st.settled then st
    else
      { st with
        settled := true
        timerCleared := true
        aborted := st.aborted ++ ((List.range n).filter (fun j => j ≠ i))
        outcome := settle st.outcome (Except.ok body) }
  | RaceEvent.failure _ =>
    let f := st.failures + 1
    if f = n ∧ st.settled = false then
      { st with
        failures := f
        timerCleared := true
        outcome := settle st.outcome (Except.error RaceError.allProxiesFailed) }
    else { st with failures := f }
  | RaceEvent.timerFires =>
    if st.timerCleared then st
    else if st.settled then { st with timerCleared := true }
    else
      { st with
        timerCleared := true
        aborted := st.aborted ++ List.range n
        outcome := settle st.outcome (Except.error RaceError.timedOut) }

/-- Run the race machine over a trace of event-loop activations. -/
def runRace (n : Nat) (events : List RaceEvent) : RaceState :=
  events.foldl (raceStep n) raceInit

/-- An event is a failure activation. -/
def isFailureEv : RaceEvent → Bool
  | RaceEvent.failure _ => true
  | _ => false

/-! ## getReadings orchestration over the two-tier cache

The service is embedded as a state-passing function; the parts whose
internals no claim depends on (the network, JSON serialization, the parsed
readings value) enter through an environment record, keeping the control
flow of getReadings itself exactly as in the source. -/

/-- Errors visible to a getReadings caller. -/
inductive SvcError where
  | dateFormat
  | badInputType
  | httpStatus (code : Nat)
  | network
  | abortErr
  | allProxiesFailed
  | proxyTimeout
  | parseFail
  | consolidatedTimeout
  | consolidatedFetch
deriving DecidableEq, Repr

/-- Behaviour of one localStorage.getItem call for a key: the call throws,
returns null, or returns a raw string. -/
inductive StoreCell where
  | throws
  | missing
  | val (raw : String)
deriving DecidableEq, Repr

/-- Environment of one getReadings call, over an abstract readings type α:
the browser test (typeof window), the outcome of the storageAvailable probe,
the behaviour of localStorage reads, JSON.parse and JSON.stringify, whether
setItem throws (quota), the outcome of the direct fetch and of the proxy
race, and parseReadings on a body. parseJson returns none when JSON.parse
throws on the raw string. -/
structure Env (α : Type) where
  isBrowser : Bool
  storageOk : Bool
  storageRead : String → StoreCell
  parseJson : String → Option α
  stringify : α → Option String
  setItemThrows : Bool
  directResult : Except SvcError String
  proxyResult : Except SvcError String
  parse : String → Except SvcError α

/-- The two cache tiers: the in-memory Map and the localStorage contents. -/
structure CacheState (α : Type) where
  mem : List (String × α)
  store : List (String × String)
deriving DecidableEq

/-- Lookup in an association list (Map.get / Map.has). -/
def alistGet {β : Type} (l : List (String × β)) (k : String) : Option β :=
  match l with
  | [] => none
  | (k2, v) :: t => if k2 = k then some v else alistGet t k

/-- Insertion into an association list (Map.set / setItem overwrite). -/
def alistSet {β : Type} (l : List (String × β)) (k : String) (v : β) :
    List (String × β) :=
  match l with
  | [] => [(k, v)]
  | (k2, v2) :: t => if k2 = k then (k, v) :: t else (k2, v2) :: alistSet t k v

/-- Embedding of storageAvailable(): the window test plus the probe write,
collapsed into the two environment flags. -/
def storageAvailable {α : Type} (e : Env α) : Bool :=
  e.isBrowser && e.storageOk

/-- Embedding of readFromPersistentCache(key): null when storage is
unavailable, when getItem throws, when the entry is absent, or when
JSON.parse throws; otherwise the parsed value. -/
def readFromPersistentCache {α : Type} (e : Env α) (key : String) : Option α :=
  if storageAvailable e then
    match e.storageRead key with
    | StoreCell.throws => none
    | StoreCell.missing => none
    | StoreCell.val raw =>
      match e.parseJson raw with
      | some v => some v
      | none => none
  else none

/-- Embedding of writeToPersistentCache(key, value): a no-op when storage is
unavailable, when JSON.stringify throws, or when setItem throws; it returns
the new store contents and can never fail. -/
def writeToPersistentCache {α : Type} (e : Env α) (st : List (String × String))
    (key : String) (v : α) : List (String × String) :=
  if storageAvailable e then
    match e.stringify v with
    | some raw => if e.setItemThrows then st else alistSet st key raw
    | none => st
  else st

/-- Embedding of the consolidated error message chosen in the proxy catch
branch of getReadings: the AbortError name test picks the timeout wording,
anything else the generic wording. -/
def consolidateProxyError (err : SvcError) : SvcError :=
  match err with
  | SvcError.abortErr => SvcError.consolidatedTimeout
  | _ => SvcError.consolidatedFetch

/-- The try block of the direct path of getReadings: fetchUrl then
parseReadings. Either step throwing sends control to the catch branch. -/
def directAttempt {α : Type} (e : Env α) : Except SvcError α :=
  match e.directResult with
  | Except.ok html => e.parse html
  | Except.error err => Except.error err

/-- The try block of the proxy path of getReadings: fetchViaProxies then
parseReadings. -/
def proxyAttempt {α : Type} (e : Env α) : Except SvcError α :=
  match e.proxyResult with
  | Except.ok html => e.parse html
  | Except.error err => Except.error err

/-- The fetch-and-store tail of getReadings, entered when both cache tiers
missed: direct attempt first; on its failure, in a browser the proxy race
with the consolidated error on failure, outside a browser the original
error. The in-memory tier is set on every success; the persistent tier is
written only on the proxy path, as in the source. -/
def fetchAndStore {α : Type} (e : Env α) (σ : CacheState α) (dateStr : String) :
    Except SvcError α × CacheState α :=
  match directAttempt e with
  | Except.ok result =>
    (Except.ok result, { σ with mem := alistSet σ.mem dateStr result })
  | Except.error err =>
    if e.isBrowser then
      match proxyAttempt e with
      | Except.ok result =>
        (Except.ok result,
          { mem := alistSet σ.mem dateStr result
            store := writeToPersistentCache e σ.store dateStr result })
      | Except.error perr => (Except.error (consolidateProxyError perr), σ)
    else (Except.error err, σ)

/-- The body of getReadings after the date key is known: in-memory tier,
then persistent tier with promotion, then fetch. -/
def getReadingsCore {α : Type} (e : Env α) (σ : CacheState α) (dateStr : String) :
    Except SvcError α × CacheState α :=
  match alistGet σ.mem dateStr with
  | some v => (Except.ok v, σ)
  | none =>
    match readFromPersistentCache e dateStr with
    | some v => (Except.ok v, { σ with mem := alistSet σ.mem dateStr v })
    | none => fetchAndStore e σ dateStr

/-- Argument of getReadings: a string key, a Date, or anything else. -/
inductive DateInput where
  | str (s : String)
  | date (d : JsDate)
  | other

/-- Embedding of getReadings(date): normalise the input to a key (with the
date-codec errors propagating on string input and a type error otherwise),
then run the cached fetch. -/
def getReadings {α : Type} (e : Env α) (σ : CacheState α) (input : DateInput) :
    Except SvcError α × CacheState α :=
  match input with
  | DateInput.str s =>
    match parseDateString s with
    | Except.error _ => (Except.error SvcError.dateFormat, σ)
    | Except.ok _ => getReadingsCore e σ s
  | DateInput.date d => getReadingsCore e σ (formatDateForUrl d)
  | DateInput.other => (Except.error SvcError.badInputType, σ)

/-! ## Concrete environments used to evaluate the service embedding -/

/-- A server-side environment whose direct fetch fails: no window, no
storage, network error on the direct route. -/
def envMiss : Env Nat :=
  ⟨false, false, fun _ => StoreCell.missing, fun _ => none, fun _ => none, false,
    Except.error SvcError.network, Except.error SvcError.allProxiesFailed,
    fun _ => Except.ok 0⟩

/-- A browser environment with working storage in which the direct fetch
succeeds. -/
def envDirect : Env Nat :=
  ⟨true, true, fun _ => StoreCell.missing, fun _ => none, fun _ => some "js", false,
    Except.ok "html", Except.ok "html", fun _ => Except.ok 7⟩

/-- A browser environment with working storage in which the direct fetch
fails and the proxy race succeeds. -/
def envProxy : Env Nat :=
  ⟨true, true, fun _ => StoreCell.missing, fun _ => none, fun _ => some "js", false,
    Except.error SvcError.network, Except.ok "html", fun _ => Except.ok 7⟩

/-- A browser environment whose localStorage read throws. -/
def envThrows : Env Nat :=
  ⟨true, true, fun _ => StoreCell.throws, fun _ => none, fun _ => some "js", false,
    Except.error SvcError.network, Except.ok "html", fun _ => Except.ok 7⟩

/-! ## Theorems -/

/-- C1: the specification demands that a six-digit key naming a nonexistent
calendar date be rejected with InvalidDateError and that the implementation
must not let the date constructor overflow into a neighbouring month. The
code violates this: the isNaN guard can never fire on six-digit input, so
the key 023099 (February 30, 2099) is silently accepted and normalised to
March 2, 2099 by the Date constructor. This theorem evaluates the embedded
parseDateString at that failing input. -/
theorem parseDate_feb30_overflow :
    parseDateString "023099" = Except.ok ⟨2099, 3, 2⟩ := by decide

/-- C6: extractSeason returns the first case-sensitive substring match among
the ordered keywords Advent, Christmas, Lent, Easter, Pentecost, Ordinary
Time; a non-empty title matching none of them gives Ordinary Time and an
empty title gives Unknown. Stated as agreement with specSeason, the
first-match rule table written from the specification. -/
theorem extractSeason_spec (t : String) : extractSeason t = specSeason t := by
  by_cases h0 : t = ""
  · simp [extractSeason, specSeason, h0]
  · simp only [extractSeason, specSeason, if_neg h0]
    by_cases h1 : jsIncludes t "Advent" = true <;>
      by_cases h2 : jsIncludes t "Christmas" = true <;>
        by_cases h3 : jsIncludes t "Lent" = true <;>
          by_cases h4 : jsIncludes t "Easter" = true <;>
            by_cases h5 : jsIncludes t "Pentecost" = true <;>
              by_cases h6 : jsIncludes t "Ordinary Time" = true <;>
                simp [List.find?, h1, h2, h3, h4, h5, h6]

/-- C7: extractLiturgicalRank performs case-insensitive substring tests in
the fixed priority order of the specification (Solemnity keywords, then
feast, then memorial, then the saint prefixes, then Ferial), with the first
matching tier winning and an empty title defaulting to Ferial; the result is
always one of the four enumerated ranks. Stated as agreement with specRank,
the tier table written from the specification, plus the range invariant. -/
theorem extractRank_spec (t : String) :
    extractLiturgicalRank t = specRank t
    ∧ (extractLiturgicalRank t = "Solemnity" ∨ extractLiturgicalRank t = "Feast"
       ∨ extractLiturgicalRank t = "Memorial" ∨ extractLiturgicalRank t = "Ferial") := by
  constructor
  · simp [extractLiturgicalRank, specRank, List.any_cons, List.any_nil,
      Bool.or_assoc, Bool.or_false]
  · by_cases h0 : t = ""
    · simp [extractLiturgicalRank, h0]
    · simp only [extractLiturgicalRank, if_neg h0]
      split_ifs <;> simp

/-- C3 counterexample: the claim says a verse block is dropped only when it
is missing both its name label and its body. The block below has a name
label and is missing only its body, yet parseReadingBlock drops it (the
source returns null as soon as the name element or the content element is
absent), so it never reaches the output sequence. -/
theorem blockDrop_counterexample :
    parseReadingBlock ⟨some "Reading 1", none, none⟩ = none
    ∧ (VerseBlock.nameEl ⟨some "Reading 1", none, none⟩ ≠ none)
    ∧ readingsOf [⟨some "Reading 1", none, none⟩] = [] := by
  refine ⟨rfl, by simp, rfl⟩

/-- C3 amended: a verse block is dropped from the output sequence exactly
when its name label or its body is missing; a block that has a name and a
body but no reference link is kept with empty reference and referenceUrl;
kept blocks appear in the output sequence and dropped blocks do not. -/
theorem blockDrop_policy (b : VerseBlock) (nm : String) (ct : ContentElem) :
    (parseReadingBlock b = none ↔ (b.nameEl = none ∨ b.contentEl = none))
    ∧ (b.nameEl = some nm → b.contentEl = some ct →
        (b.addressEl = none ∨ b.addressEl = some ⟨none⟩) →
        parseReadingBlock b = some ⟨jsTrim nm, "", "", extractTextContent ct⟩)
    ∧ (∀ r pre post, parseReadingBlock b = some r →
        readingsOf (pre ++ b :: post) = readingsOf pre ++ r :: readingsOf post)
    ∧ (∀ pre post, parseReadingBlock b = none →
        readingsOf (pre ++ b :: post) = readingsOf pre ++ readingsOf post) := by
  refine ⟨?_, ?_, ?_, ?_⟩
  · obtain ⟨n, a, c⟩ := b
    cases n <;> cases c <;> simp [parseReadingBlock]
  · intro h1 h2 h3
    obtain ⟨n, a, c⟩ := b
    cases h1; cases h2
    rcases h3 with h3 | h3 <;> cases h3 <;> simp [parseReadingBlock]
  · intro r pre post h
    simp [readingsOf, List.filterMap_append, List.filterMap_cons, h]
  · intro pre post h
    simp [readingsOf, List.filterMap_append, List.filterMap_cons, h]

/-- C3 witness: a concrete block with a name, a body and an address element
holding no anchor is kept with empty reference fields. -/
theorem blockDrop_policy_witness :
    parseReadingBlock ⟨some "Reading 1", some ⟨none⟩, some ⟨["alpha"]⟩⟩
      = some ⟨"Reading 1", "", "", "alpha"⟩ :=
  ((blockDrop_policy ⟨some "Reading 1", some ⟨none⟩, some ⟨["alpha"]⟩⟩
      "Reading 1" ⟨["alpha"]⟩).2.1 rfl rfl (Or.inr rfl)).trans (by decide)

/-- Helper: when getReadingsCore returns an error, the cache state comes
back unchanged (every error branch of the source returns before any
cache.set call). -/
theorem getReadingsCore_error_keeps {α : Type} (e : Env α) (σ : CacheState α)
    (key : String) (err : SvcError)
    (h : (getReadingsCore e σ key).1 = Except.error err) :
    (getReadingsCore e σ key).2 = σ := by
  unfold getReadingsCore at h ⊢
  cases hm : alistGet σ.mem key with
  | some v => simp [hm] at h
  | none =>
    simp only [hm] at h ⊢
    cases hr : readFromPersistentCache e key with
    | some v => simp [hr] at h
    | none =>
      simp only [hr] at h ⊢
      unfold fetchAndStore at h ⊢
      cases hd : directAttempt e with
      | ok r => simp [hd] at h
      | error er =>
        simp only [hd] at h ⊢
        cases hb : e.isBrowser with
        | false => simp [hb]
        | true =>
          simp only [hb, if_true] at h ⊢
          cases hq : proxyAttempt e with
          | ok r => simp [hq] at h
          | error pe => simp [hq]

/-- C9: a failing getReadings call (date validation, fetch, or parse
failure) leaves the cache state unchanged, so no partial or stale entry is
installed for any key: an in-memory entry appears only together with a
successful return. -/
theorem getReadings_error_keeps_cache {α : Type} (e : Env α) (σ : CacheState α)
    (input : DateInput) (err : SvcError)
    (h : (getReadings e σ input).1 = Except.error err) :
    (getReadings e σ input).2 = σ := by
  cases input with
  | other => rfl
  | date d => exact getReadingsCore_error_keeps e σ (formatDateForUrl d) err h
  | str s =>
    unfold getReadings at h ⊢
    cases hp : parseDateString s with
    | error de => simp [hp]
    | ok dt =>
      simp only [hp] at h ⊢
      exact getReadingsCore_error_keeps e σ s err h

/-- C9 witness: a concrete failing call (server side, network error on the
direct fetch) leaves the empty cache state untouched. -/
theorem getReadings_error_keeps_cache_witness :
    (getReadings envMiss ⟨[], []⟩ (DateInput.str "121525")).2 = ⟨[], []⟩ :=
  getReadings_error_keeps_cache envMiss ⟨[], []⟩ (DateInput.str "121525")
    SvcError.network rfl

/-- C10: a durable-tier entry that cannot be read (storage access throws)
or holds invalid serialized data (JSON.parse throws) makes
readFromPersistentCache return null, and getReadings then treats the key as
a full cache miss and proceeds to the fetch path, never surfacing the
corrupt entry as an error. -/
theorem persistent_miss_policy {α : Type} (e : Env α) (σ : CacheState α)
    (key raw : String) :
    (e.storageRead key = StoreCell.throws → readFromPersistentCache e key = none)
    ∧ (e.storageRead key = StoreCell.val raw → e.parseJson raw = none →
        readFromPersistentCache e key = none)
    ∧ (alistGet σ.mem key = none → readFromPersistentCache e key = none →
        getReadingsCore e σ key = fetchAndStore e σ key) := by
  refine ⟨?_, ?_, ?_⟩
  · intro h
    cases hsa : storageAvailable e <;> simp [readFromPersistentCache, hsa, h]
  · intro h1 h2
    cases hsa : storageAvailable e <;> simp [readFromPersistentCache, hsa, h1, h2]
  · intro h1 h2
    unfold getReadingsCore
    simp [h1, h2]

/-- C10 witness: with a throwing localStorage read, the durable tier reads
as null and the cached fetch reduces to the plain fetch path. -/
theorem persistent_miss_policy_witness :
    readFromPersistentCache envThrows "121525" = (none : Option Nat)
    ∧ getReadingsCore envThrows ⟨[], []⟩ "121525"
        = fetchAndStore envThrows ⟨[], []⟩ "121525" :=
  ⟨(persistent_miss_policy envThrows ⟨[], []⟩ "121525" "raw").1 rfl,
   (persistent_miss_policy envThrows ⟨[], []⟩ "121525" "raw").2.2 rfl
     ((persistent_miss_policy envThrows ⟨[], []⟩ "121525" "raw").1 rfl)⟩

/-- C5 counterexample: the claim says that on a double cache miss every
successful fetch-and-parse (direct or raced) stores into both tiers, the
durable one best-effort. In a browser with fully working storage where the
direct fetch succeeds, getReadings returns the parsed value but leaves the
durable tier empty, even though a durable write would have succeeded (third
conjunct): the source only calls writeToPersistentCache on the proxy path. -/
theorem durable_write_counterexample :
    (getReadings envDirect ⟨[], []⟩ (DateInput.str "121525")).1 = Except.ok 7
    ∧ (getReadings envDirect ⟨[], []⟩ (DateInput.str "121525")).2.store = []
    ∧ writeToPersistentCache envDirect [] "121525" 7 = [("121525", "js")] :=
  ⟨rfl, rfl, rfl⟩

/-- C5 amended: on a double cache miss, a successful fetch-and-parse always
installs the in-memory entry together with the returned value; the durable
tier is written, best-effort, only on the proxy-race path, while the
direct-fetch path leaves it untouched; and a durable-tier write failure
(unavailable storage, serialization failure, quota) is swallowed, leaving
the store unchanged and never propagating to the caller. -/
theorem cache_write_policy {α : Type} (e : Env α) (σ : CacheState α)
    (key : String) (r : α) (err : SvcError)
    (hmem : alistGet σ.mem key = none)
    (hpers : readFromPersistentCache e key = none) :
    (directAttempt e = Except.ok r →
      getReadingsCore e σ key = (Except.ok r, ⟨alistSet σ.mem key r, σ.store⟩))
    ∧ (directAttempt e = Except.error err → e.isBrowser = true →
        proxyAttempt e = Except.ok r →
        getReadingsCore e σ key =
          (Except.ok r, ⟨alistSet σ.mem key r, writeToPersistentCache e σ.store key r⟩))
    ∧ (e.stringify r = none ∨ e.setItemThrows = true ∨ storageAvailable e = false →
        writeToPersistentCache e σ.store key r = σ.store) := by
  refine ⟨?_, ?_, ?_⟩
  · intro hd
    unfold getReadingsCore fetchAndStore
    simp [hmem, hpers, hd]
  · intro hd hb hq
    unfold getReadingsCore fetchAndStore
    simp [hmem, hpers, hd, hb, hq]
  · intro hfail
    unfold writeToPersistentCache
    rcases hfail with hst | hquota | hsa
    · cases hsa2 : storageAvailable e <;> simp [hsa2, hst]
    · cases hsa2 : storageAvailable e <;> cases hraw : e.stringify r <;>
        simp [hsa2, hraw, hquota]
    · simp [hsa]

/-- C5 witness: the proxy-path clause evaluated in a concrete browser
environment with failing direct fetch: the value is returned, the in-memory
entry appears, and the durable entry is persisted. -/
theorem cache_write_policy_witness :
    getReadingsCore envProxy ⟨[], []⟩ "121525"
      = (Except.ok 7, ⟨[("121525", 7)], [("121525", "js")]⟩) :=
  ((cache_write_policy envProxy ⟨[], []⟩ "121525" 7 SvcError.network rfl rfl).2.1
    rfl rfl rfl).trans (by decide)

/-- Helper: promise semantics — once the race promise is settled, no later
event-loop activation changes it. -/
theorem raceStep_outcome_some (n : Nat) (st : RaceState) (ev : RaceEvent)
    (x : Except RaceError String) (h : st.outcome = some x) :
    (raceStep n st ev).outcome = some x := by
  cases ev <;> simp only [raceStep] <;> split_ifs <;> simp [settle, h]

/-- Helper: outcome preservation along an arbitrary trace suffix. -/
theorem raceRun_outcome_some (n : Nat) (evs : List RaceEvent) (st : RaceState)
    (x : Except RaceError String) (h : st.outcome = some x) :
    (evs.foldl (raceStep n) st).outcome = some x := by
  induction evs generalizing st with
  | nil => exact h
  | cons ev evs ih => exact ih _ (raceStep_outcome_some n st ev x h)

/-- Helper: while only failures arrive and their running count stays below
the number of routes, the race stays unsettled with an unsettled promise and
the failure counter advances by the number of events. -/
theorem raceRun_failures_phase (n : Nat) (fs : List RaceEvent) (st : RaceState)
    (hall : ∀ ev ∈ fs, isFailureEv ev = true)
    (hs : st.settled = false) (ho : st.outcome = none)
    (hcnt : st.failures + fs.length < n) :
    (fs.foldl (raceStep n) st).settled = false
    ∧ (fs.foldl (raceStep n) st).outcome = none
    ∧ (fs.foldl (raceStep n) st).failures = st.failures + fs.length := by
  induction fs generalizing st with
  | nil => simpa using ⟨hs, ho⟩
  | cons ev fs ih =>
    have hev : isFailureEv ev = true := hall ev (by simp)
    cases ev with
    | success i b => simp [isFailureEv] at hev
    | timerFires => simp [isFailureEv] at hev
    | failure i =>
      simp only [List.length_cons] at hcnt
      rw [List.foldl_cons]
      have hne : ¬(st.failures + 1 = n ∧ st.settled = false) := by
        intro hc
        omega
      have hstep : raceStep n st (RaceEvent.failure i)
          = { st with failures := st.failures + 1 } := by
        simp [raceStep, hne]
      rw [hstep]
      have := ih { st with failures := st.failures + 1 }
        (fun e he => hall e (by simp [he])) hs ho (by simp; omega)
      simpa [Nat.add_assoc, Nat.add_comm, Nat.add_left_comm] using this

/-- Helper: failure activations never touch the aborted-controller set. -/
theorem raceRun_failures_aborted (n : Nat) (fs : List RaceEvent) (st : RaceState)
    (hall : ∀ ev ∈ fs, isFailureEv ev = true) :
    (fs.foldl (raceStep n) st).aborted = st.aborted := by
  induction fs generalizing st with
  | nil => rfl
  | cons ev fs ih =>
    have hev : isFailureEv ev = true := hall ev (by simp)
    cases ev with
    | success i b => simp [isFailureEv] at hev
    | timerFires => simp [isFailureEv] at hev
    | failure i =>
      rw [List.foldl_cons]
      have : (raceStep n st (RaceEvent.failure i)).aborted = st.aborted := by
        simp only [raceStep]
        split_ifs <;> rfl
      rw [ih _ (fun e he => hall e (by simp [he])), this]

/-- Helper: when the race is unsettled with an unsettled promise and the
remaining failure activations bring the counter exactly to the number of
routes, the last of them rejects with the aggregate failure. -/
theorem raceRun_all_fail (n : Nat) (fs : List RaceEvent) (st : RaceState)
    (hall : ∀ ev ∈ fs, isFailureEv ev = true)
    (hs : st.settled = false) (ho : st.outcome = none)
    (hcnt : st.failures + fs.length = n) (hne : 1 ≤ fs.length) :
    (fs.foldl (raceStep n) st).outcome
      = some (Except.error RaceError.allProxiesFailed) := by
  induction fs generalizing st with
  | nil => simp at hne
  | cons ev fs ih =>
    have hev : isFailureEv ev = true := hall ev (by simp)
    cases ev with
    | success i b => simp [isFailureEv] at hev
    | timerFires => simp [isFailureEv] at hev
    | failure i =>
      rw [List.foldl_cons]
      by_cases hlast : st.failures + 1 = n
      · have hfs : fs.length = 0 := by
          simp at hcnt
          omega
        have hstep : (raceStep n st (RaceEvent.failure i)).outcome
            = some (Except.error RaceError.allProxiesFailed) := by
          simp [raceStep, hlast, hs, ho, settle]
        rw [List.length_eq_zero.mp hfs]
        exact hstep
      · have hstep : raceStep n st (RaceEvent.failure i)
            = { st with failures := st.failures + 1 } := by
          simp [raceStep, hlast]
        rw [hstep]
        refine ih { st with failures := st.failures + 1 }
          (fun e he => hall e (by simp [he])) hs ho (by simp at hcnt ⊢; omega) ?_
        simp at hcnt
        omega

/-- C2: in a race of n routes in which exactly one route succeeds with a
2xx body and the other n - 1 fail, in any interleaving of the event loop
with the deadline not firing, the race settles with the successful body;
failure activations arriving after the success never change the settled
outcome, so exactly one outcome is observable. -/
theorem race_single_winner (n i : Nat) (b : String) (fs1 fs2 : List RaceEvent)
    (hn : 2 ≤ n)
    (h1 : ∀ ev ∈ fs1, isFailureEv ev = true)
    (h2 : ∀ ev ∈ fs2, isFailureEv ev = true)
    (hlen : fs1.length + fs2.length = n - 1) :
    (runRace n (fs1 ++ RaceEvent.success i b :: fs2)).outcome
      = some (Except.ok b) := by
  unfold runRace
  rw [List.foldl_append, List.foldl_cons]
  obtain ⟨hs, ho, _⟩ := raceRun_failures_phase n fs1 raceInit h1 rfl rfl
    (by simp [raceInit]; omega)
  have hstep : (raceStep n (fs1.foldl (raceStep n) raceInit)
      (RaceEvent.success i b)).outcome = some (Except.ok b) := by
    simp [raceStep, hs, ho, settle]
  exact raceRun_outcome_some n fs2 _ _ hstep

/-- C2 witness: three routes, route 1 failing before the success of route 0
and route 2 failing after it. -/
theorem race_single_winner_witness :
    (runRace 3 ([RaceEvent.failure 1] ++ RaceEvent.success 0 "body"
      :: [RaceEvent.failure 2])).outcome = some (Except.ok "body") :=
  race_single_winner 3 0 "body" [RaceEvent.failure 1] [RaceEvent.failure 2]
    (by decide) (by decide) (by decide) (by decide)

/-- C4: if all n routes fail before any succeeds, the race rejects with the
aggregate all-routes-failed error; if the shared deadline fires before any
success, the race aborts every route controller and rejects with the
timeout error, and the failure activations of the aborted routes arriving
afterwards do not change it; and in general a settled outcome is never
replaced, so exactly one of the two errors is ever observable. -/
theorem race_failure_modes (n : Nat) (fs gs : List RaceEvent)
    (hn : 1 ≤ n)
    (hfs : ∀ ev ∈ fs, isFailureEv ev = true)
    (hlfs : fs.length = n)
    (hgs : ∀ ev ∈ gs, isFailureEv ev = true) :
    (runRace n fs).outcome = some (Except.error RaceError.allProxiesFailed)
    ∧ (runRace n (RaceEvent.timerFires :: gs)).outcome
        = some (Except.error RaceError.timedOut)
    ∧ (runRace n (RaceEvent.timerFires :: gs)).aborted = List.range n
    ∧ (∀ (evs more : List RaceEvent) (x : Except RaceError String),
        (runRace n evs).outcome = some x
        → (runRace n (evs ++ more)).outcome = some x) := by
  refine ⟨?_, ?_, ?_, ?_⟩
  · exact raceRun_all_fail n fs raceInit hfs rfl rfl (by simp [raceInit, hlfs]) (by omega)
  · unfold runRace
    rw [List.foldl_cons]
    have h1 : (raceStep n raceInit RaceEvent.timerFires).outcome
        = some (Except.error RaceError.timedOut) := by
      simp [raceStep, raceInit, settle]
    exact raceRun_outcome_some n gs _ _ h1
  · unfold runRace
    rw [List.foldl_cons]
    have h1 : (raceStep n raceInit RaceEvent.timerFires).aborted = List.range n := by
      simp [raceStep, raceInit]
    rw [raceRun_failures_aborted n gs _ hgs, h1]
  · intro evs more x h
    unfold runRace at h ⊢
    rw [List.foldl_append]
    exact raceRun_outcome_some n more _ x h

/-- C4 witness: two routes; both failing yields the aggregate error, while
the deadline firing first yields the timeout error with both controllers
aborted, even though both routes then fail. -/
theorem race_failure_modes_witness :
    (runRace 2 [RaceEvent.failure 0, RaceEvent.failure 1]).outcome
      = some (Except.error RaceError.allProxiesFailed)
    ∧ (runRace 2 (RaceEvent.timerFires
        :: [RaceEvent.failure 0, RaceEvent.failure 1])).outcome
      = some (Except.error RaceError.timedOut) :=
  ⟨(race_failure_modes 2 [RaceEvent.failure 0, RaceEvent.failure 1]
      [RaceEvent.failure 0, RaceEvent.failure 1] (by decide) (by decide)
      (by decide) (by decide)).1,
   (race_failure_modes 2 [RaceEvent.failure 0, RaceEvent.failure 1]
      [RaceEvent.failure 0, RaceEvent.failure 1] (by decide) (by decide)
      (by decide) (by decide)).2.1⟩

/-- Helper: a digit character has value below ten. -/
theorem dv_lt_ten {c : Char} (h : isDigitCh c = true) : dv c < 10 := by
  simp only [isDigitCh, Bool.and_eq_true, decide_eq_true_eq] at h
  unfold dv
  omega

/-- Helper: the character of a digit value is a digit with that value. -/
theorem digitChar_props : ∀ k : Nat, k < 10 →
    (isDigitCh (Char.ofNat (48 + k)) = true ∧ dv (Char.ofNat (48 + k)) = k) := by
  decide

/-- Helper: the two characters produced by zero-padding a value below one
hundred are its decimal digits. -/
theorem pad2_data : ∀ n : Nat, n < 100 →
    (pad2 n).data = [Char.ofNat (48 + n / 10), Char.ofNat (48 + n % 10)] := by
  decide

/-- Helper: slicing the last two characters of a year in 2000..2099 equals
zero-padding the year remainder. -/
theorem yearSuffix_pad2 : ∀ n : Nat, n < 100 →
    yearSuffix ((2000 + n : Nat) : Int) = pad2 n := by
  decide

/-- Helper: a string whose character data is known is that literal. -/
theorem string_eq_of_data {s : String} {l : List Char} (h : s.data = l) : s = ⟨l⟩ := by
  cases s
  cases h
  rfl

/-- Helper: day normalisation is the identity on an existing calendar day. -/
theorem normDate_fixed (fuel : Nat) (y : Int) (m : Nat) (d : Int)
    (h1 : 1 ≤ d) (h2 : d ≤ (daysInMonth y m : Int)) :
    normDate (fuel + 1) y m d = (y, m, d) := by
  unfold normDate
  rw [if_neg (by omega), if_neg (by omega)]

/-- Helper: the Date constructor is the identity on the components of an
existing calendar date. -/
theorem mkDate_fixed (y : Int) (m dd : Nat) (h1 : 1 ≤ m) (h2 : m ≤ 12)
    (h3 : 1 ≤ dd) (h4 : dd ≤ daysInMonth y m) :
    mkDate y ((m : Int) - 1) (dd : Int) = ⟨y, m, dd⟩ := by
  have he : ((m : Int) - 1) / 12 = 0 := by omega
  have hm : ((m : Int) - 1) % 12 = (m : Int) - 1 := by omega
  have hm2 : ((m : Int) - 1).toNat + 1 = m := by omega
  simp only [mkDate, he, hm, hm2, add_zero]
  rw [show (10 : Nat) = 9 + 1 from rfl,
    normDate_fixed 9 y m dd (by omega) (by exact_mod_cast h4)]
  simp

/-- C8: round-trip stability of the date codec: for every valid six-digit
key K (one whose month, day and year components name an existing calendar
date), decoding, re-encoding with formatDateForUrl and decoding again gives
the same result as decoding K once. -/
theorem roundtrip_stable (K : String) (h : validKey K = true) :
    (parseDateString K).bind (fun dt => parseDateString (formatDateForUrl dt))
      = parseDateString K := by
  obtain ⟨l⟩ := K
  rcases l with _ | ⟨a, _ | ⟨b, _ | ⟨c, _ | ⟨d, _ | ⟨e, _ | ⟨f, _ | ⟨g, t⟩⟩⟩⟩⟩⟩⟩
  · simp [validKey] at h
  · simp [validKey] at h
  · simp [validKey] at h
  · simp [validKey] at h
  · simp [validKey] at h
  · simp [validKey] at h
  case mk.cons.cons.cons.cons.cons.cons.cons =>
    simp [validKey] at h
  case mk.cons.cons.cons.cons.cons.cons.nil =>
    simp only [validKey, Bool.and_eq_true, decide_eq_true_eq] at h
    obtain ⟨⟨⟨⟨⟨⟨hda, hdb⟩, hdc⟩, hdd⟩, hde⟩, hdf⟩, ⟨⟨hm1, hm2⟩, hd1⟩, hd2⟩ := h
    set M := 10 * dv a + dv b with hMdef
    set D := 10 * dv c + dv d with hDdef
    set Y := 10 * dv e + dv f with hYdef
    have hM100 : M < 100 := by have := dv_lt_ten hda; have := dv_lt_ten hdb; omega
    have hD100 : D < 100 := by have := dv_lt_ten hdc; have := dv_lt_ten hdd; omega
    have hY100 : Y < 100 := by have := dv_lt_ten hde; have := dv_lt_ten hdf; omega
    have hPK : parseDateString ⟨[a, b, c, d, e, f]⟩
        = Except.ok ⟨((2000 + Y : Nat) : Int), M, D⟩ := by
      simp only [parseDateString]
      rw [if_pos (by simp [hda, hdb, hdc, hdd, hde, hdf])]
      rw [mkDate_fixed ((2000 + Y : Nat) : Int) M D hm1 hm2 hd1 hd2]
    have hfmtdata : (formatDateForUrl ⟨((2000 + Y : Nat) : Int), M, D⟩).data
        = [Char.ofNat (48 + M / 10), Char.ofNat (48 + M % 10),
           Char.ofNat (48 + D / 10), Char.ofNat (48 + D % 10),
           Char.ofNat (48 + Y / 10), Char.ofNat (48 + Y % 10)] := by
      simp only [formatDateForUrl, yearSuffix_pad2 Y hY100]
      simp [pad2_data M hM100, pad2_data D hD100, pad2_data Y hY100]
    have hP2 : parseDateString (formatDateForUrl ⟨((2000 + Y : Nat) : Int), M, D⟩)
        = Except.ok ⟨((2000 + Y : Nat) : Int), M, D⟩ := by
      rw [string_eq_of_data hfmtdata]
      simp only [parseDateString]
      rw [if_pos (by simp [(digitChar_props (M / 10) (by omega)).1,
        (digitChar_props (M % 10) (by omega)).1,
        (digitChar_props (D / 10) (by omega)).1,
        (digitChar_props (D % 10) (by omega)).1,
        (digitChar_props (Y / 10) (by omega)).1,
        (digitChar_props (Y % 10) (by omega)).1])]
      rw [(digitChar_props (M / 10) (by omega)).2, (digitChar_props (M % 10) (by omega)).2,
        (digitChar_props (D / 10) (by omega)).2, (digitChar_props (D % 10) (by omega)).2,
        (digitChar_props (Y / 10) (by omega)).2, (digitChar_props (Y % 10) (by omega)).2]
      rw [show 10 * (M / 10) + M % 10 = M by omega,
        show 10 * (D / 10) + D % 10 = D by omega,
        show 10 * (Y / 10) + Y % 10 = Y by omega]
      rw [mkDate_fixed ((2000 + Y : Nat) : Int) M D hm1 hm2 hd1 hd2]
    rw [hPK]
    show parseDateString (formatDateForUrl ⟨((2000 + Y : Nat) : Int), M, D⟩)
      = Except.ok ⟨((2000 + Y : Nat) : Int), M, D⟩
    exact hP2

/-- C8 witness: the round trip evaluated at the valid key 121525. -/
theorem roundtrip_stable_witness :
    validKey "121525" = true
    ∧ (parseDateString "121525").bind
        (fun dt => parseDateString (formatDateForUrl dt)) = parseDateString "121525" :=
  ⟨by decide, roundtrip_stable "121525" (by decide)⟩

end CathReadings
